import Mathlib

/-!
# album-art.js

A shallow embedding of `src/js/album-art.js`: the cache-or-fetch lookup
`get_lastfm_entry`, the size selection and binding of `fetch_album_art`, the
`error` listener it registers on the `<img>` element and the page-level loop.

JavaScript values are the values `JSON.parse` and `response.json()` can produce,
plus `undefined`.  Numbers are the integers, negative zero and the two
infinities that an out-of-range literal is read as.  The browser is explicit
state: `localStorage`, the `<img>` element, the log of network requests.  A
string in `localStorage` is represented by what `JSON.parse` reads from it, and
a write to the store always succeeds.  An `async` call is run in two parts, up
to the request it sends and from the reply on; a call answered from the store
runs to its end at once.
-/

namespace AlbumArt

/-! ## JavaScript values -/

/-- A JavaScript value as this script meets it: the results of `JSON.parse` and
`response.json()`, and `undefined` for a property that is not there.  Besides
the integers, a number is `-0` (the literal `-0`) or an infinity (a literal
beyond the range of a double, such as `1e400`). -/
inductive JVal where
  | undefined : JVal
  | null : JVal
  | bool (b : Bool) : JVal
  | num (n : Int) : JVal
  | negZero : JVal
  | inf (negative : Bool) : JVal
  | str (s : String) : JVal
  | arr (items : List JVal) : JVal
  | obj (fields : List (String × JVal)) : JVal
  deriving Repr, Inhabited

/-- What a `throw` carries: an `Error` instance (of any class: `Error`,
`TypeError`, `SyntaxError`) with its `message`, or any other value, as in
`throw lastfm.error`. -/
inductive Thrown where
  | error (message : String) : Thrown
  | value (v : JVal) : Thrown
  deriving Repr, Inhabited

/-- ToBoolean: `undefined`, `null`, `false`, `0`, `-0` and `''` are falsy. -/
def truthy : JVal → Bool
  | .undefined => false
  | .null => false
  | .bool b => b
  | .num n => n != 0
  | .negZero => false
  | .inf _ => true
  | .str s => s != ""
  | .arr _ => true
  | .obj _ => true

/-- Whether the value is `undefined` or `null`. -/
def nullish : JVal → Bool
  | .undefined => true
  | .null => true
  | _ => false

/-- Strict equality `v === s` against a string literal. -/
def strictEqStr : JVal → String → Bool
  | .str t, s => t == s
  | _, _ => false

/-- Own property lookup in an object's field list; a missing property reads as
`undefined`. -/
def lookupField : List (String × JVal) → String → JVal
  | [], _ => .undefined
  | (k, v) :: rest, name => if k == name then v else lookupField rest name

/-- The message of the `TypeError` raised on reading a property of `undefined`
or `null`.  The wording is the engine's; nothing depends on it. -/
def readOfNullish (v : JVal) (name : String) : Thrown :=
  .error ("Cannot read properties of " ++
    (match v with | .null => "null" | _ => "undefined") ++
    " (reading '" ++ name ++ "')")

/-- Property read `v.name` / `v[name]`, for the names this script reads (`error`,
`album`, `name`, `artist`, `image`, `size`, `#text`, `message`): a `TypeError`
on `undefined` and `null`, the own property on an object, and `undefined` on an
array, string, number or boolean, none of which has a property of those names. -/
def getProp (v : JVal) (name : String) : Except Thrown JVal :=
  match v with
  | .undefined => .error (readOfNullish v name)
  | .null => .error (readOfNullish v name)
  | .obj fields => .ok (lookupField fields name)
  | _ => .ok .undefined

/-! ## The cache key -/

/-- The `make_key` of the script: the template literal of `album`, a newline and
`artist`. -/
def make_key (artist album : String) : String :=
  album ++ "\n" ++ artist

/-! ## Size selection -/

/-- The `target_size` chain of `fetch_album_art`: starts at `'mega'` and is
lowered by the first threshold that `img_size` does not exceed. -/
def target_size (img_size : Nat) : String :=
  if img_size ≤ 25 then "small"
  else if img_size ≤ 48 then "medium"
  else if img_size ≤ 130 then "large"
  else if img_size ≤ 225 then "extralarge"
  else "mega"

/-- The `Array.prototype.find` call with the callback
`({size}) => size === target_size`: destructuring an `undefined` or `null`
element throws, otherwise the first element whose `size` is the target is
returned, and `undefined` when there is none. -/
def findBySize : List JVal → String → Except Thrown JVal
  | [], _ => .ok .undefined
  | x :: rest, target =>
    match getProp x "size" with
    | .error e => .error e
    | .ok size => if strictEqStr size target then .ok x else findBySize rest target

/-- Indexed read `items[items.length - 1]`: `undefined` on an empty array. -/
def lastItem : List JVal → JVal
  | [] => .undefined
  | [x] => x
  | _ :: y :: rest => lastItem (y :: rest)

/-- The expression
`entry.image.find(({size}) => size === target_size) ?? entry.image[entry.image.length - 1]`
on the value of `entry.image`.  Only an array has `find`. -/
def selectArt (image : JVal) (target : String) : Except Thrown JVal :=
  match image with
  | .arr items =>
    match findBySize items target with
    | .error e => .error e
    | .ok found => if nullish found then .ok (lastItem items) else .ok found
  | .undefined => .error (readOfNullish image "find")
  | .null => .error (readOfNullish image "find")
  | _ => .error (.error "entry.image.find is not a function")

/-! ## String conversion -/

mutual
/-- ToString, as the template literal, the `+` of the `catch` block and the
`src` setter apply it.  An array joins its elements with commas (`undefined` and
`null` as the empty string).  An object reads `[object Object]`, unless it has
an own `toString` property: out of JSON that is never a function, and the
conversion throws a `TypeError`. -/
def toStr : JVal → Except Thrown String
  | .undefined => .ok "undefined"
  | .null => .ok "null"
  | .bool b => .ok (if b then "true" else "false")
  | .num n => .ok (toString n)
  | .negZero => .ok "0"
  | .inf negative => .ok (if negative then "-Infinity" else "Infinity")
  | .str s => .ok s
  | .arr items => joinItems items
  | .obj fields =>
    if fields.any (fun kv => kv.1 == "toString")
    then .error (.error "Cannot convert object to primitive value")
    else .ok "[object Object]"
/-- `Array.prototype.join` with the `,` separator. -/
def joinItems : List JVal → Except Thrown String
  | [] => .ok ""
  | [x] => if nullish x then .ok "" else toStr x
  | x :: y :: rest =>
    match (if nullish x then .ok "" else toStr x) with
    | .error e => .error e
    | .ok s =>
      match joinItems (y :: rest) with
      | .error e => .error e
      | .ok t => .ok (s ++ "," ++ t)
end

/-! ## JSON and localStorage -/

/-- A string held by `localStorage`, by what `JSON.parse` makes of it: the JSON
text of a value, or text that is not JSON. -/
inductive StoredText where
  | json (v : JVal) : StoredText
  | malformed (text : String) : StoredText
  deriving Repr, Inhabited

mutual
/-- The value that the text `JSON.stringify` writes for a value reads back as:
an `undefined` array element is written as `null`, a property whose value is
`undefined` is not written, an infinity is written as `null` and `-0` as `0`. -/
def jsonValue : JVal → JVal
  | .undefined => .null
  | .negZero => .num 0
  | .inf _ => .null
  | .arr items => .arr (jsonItems items)
  | .obj fields => .obj (jsonFields fields)
  | v => v
/-- The elements of an array, as written by `JSON.stringify`. -/
def jsonItems : List JVal → List JVal
  | [] => []
  | x :: rest => jsonValue x :: jsonItems rest
/-- The properties of an object, as written by `JSON.stringify`. -/
def jsonFields : List (String × JVal) → List (String × JVal)
  | [] => []
  | (k, v) :: rest =>
    match v with
    | .undefined => jsonFields rest
    | _ => (k, jsonValue v) :: jsonFields rest
end

/-- `JSON.stringify(v)` as handed to `setItem`: the JSON text of the value; for
`undefined` it returns `undefined`, which `setItem` stores as the text
`undefined`. -/
def JSON_stringify : JVal → StoredText
  | .undefined => .malformed "undefined"
  | v => .json (jsonValue v)

/-- `JSON.parse` on what `getItem` returned: `null` (no such key) is read as the
text `null`; text that is not JSON throws a `SyntaxError`. -/
def JSON_parse : Option StoredText → Except Thrown JVal
  | none => .ok .null
  | some (.json v) => .ok v
  | some (.malformed text) => .error (.error ("Unexpected token in JSON: " ++ text))

/-- The contents of `window.localStorage`. -/
abbrev Store := List (String × StoredText)

/-- The `localStorage.getItem`: `none` is the `null` of a missing key. -/
def getItem : Store → String → Option StoredText
  | [], _ => none
  | (k, v) :: rest, key => if k == key then some v else getItem rest key

/-- The `localStorage.removeItem`. -/
def removeItem (store : Store) (key : String) : Store :=
  store.filter (fun kv => !(kv.1 == key))

/-- The `localStorage.setItem`; the write always succeeds (no quota). -/
def setItem (store : Store) (key : String) (text : StoredText) : Store :=
  (key, text) :: removeItem store key

/-! ## The last.fm lookup -/

/-- A GET request to the last.fm API: the endpoint and the query parameters
given to `URLSearchParams`. -/
structure Request where
  url : String
  method : String
  format : String
  api_key : String
  artist : String
  album : String
  deriving DecidableEq, Repr

/-- The endpoint constant of the script. -/
def API_URL : String := "https://ws.audioscrobbler.com/2.0/"

/-- How `fetch(...).then(response => response.json())` settles: rejected (the
request failed, or the body is not JSON) or fulfilled with the parsed body. -/
abbrev Reply := Except Thrown JVal

/-- The request `get_lastfm_entry` sends for an artist and an album. -/
def lastfm_request (api_key artist album : String) : Request :=
  { url := API_URL, method := "album.getinfo", format := "json",
    api_key := api_key, artist := artist, album := album }

/-- Lines 19-26 of the script: `entry` starts as `null`, and is the parsed item
of `localStorage` unless `JSON.parse` throws, which the empty `catch` drops. -/
def cached_entry (store : Store) (local_storage_key : String) : JVal :=
  match JSON_parse (getItem store local_storage_key) with
  | .ok entry => entry
  | .error _ => .null

/-- The entry object literal built from the response body, lines 43-51: throws
`lastfm.error` when it is truthy, otherwise reads `name`, `artist` and `image`
off `lastfm.album`. -/
def entry_of_response (lastfm : JVal) : Except Thrown JVal :=
  match getProp lastfm "error" with
  | .error e => .error e
  | .ok err =>
    if truthy err then .error (.value err)
    else
      match getProp lastfm "album" with
      | .error e => .error e
      | .ok album =>
        match getProp album "name", getProp album "artist", getProp album "image" with
        | .ok name, .ok artist, .ok image =>
          .ok (.obj [("name", name), ("artist", artist), ("image", image)])
        | .error e, _, _ => .error e
        | _, .error e, _ => .error e
        | _, _, .error e => .error e

/-- The second `then` callback, lines 42-57: the entry is built, written to
`localStorage` under the key and returned. -/
def on_response (store : Store) (local_storage_key : String) (lastfm : JVal) :
    Except Thrown JVal × Store :=
  match entry_of_response lastfm with
  | .error e => (.error e, store)
  | .ok entry => (.ok entry, setItem store local_storage_key (JSON_stringify entry))

/-- How the promise of `get_lastfm_entry` settles, with the store it leaves and
the requests it sent. -/
structure Lookup where
  result : Except Thrown JVal
  store : Store
  requests : List Request

/-- The `get_lastfm_entry` of the script, run to the settling of its promise;
`net` answers the request it may send. -/
def get_lastfm_entry (api_key : String) (net : Request → Reply) (store : Store)
    (artist album : String) : Lookup :=
  let local_storage_key := make_key artist album
  let entry := cached_entry store local_storage_key
  if truthy entry then
    { result := .ok entry, store := store, requests := [] }
  else
    let search := lastfm_request api_key artist album
    match net search with
    | .error e => { result := .error e, store := store, requests := [search] }
    | .ok lastfm =>
      let r := on_response store local_storage_key lastfm
      { result := r.1, store := r.2, requests := [search] }

/-! ## The image element and `fetch_album_art` -/

/-- The arrow function registered on the `error` event, by the variables of the
enclosing `fetch_album_art` call that it captures.  An `is_retry` that was not
passed (`undefined`) is `false`. -/
structure Listener where
  artist : String
  album : String
  is_retry : Bool
  deriving DecidableEq, Repr

/-- The `<img>` element: its `data-artist` and `data-album` attributes, its size, what the script sets on it (`src`, `title`,
`dataset.error`; `none` when never set) and its `error` listeners, in the order
they were added. -/
structure Img where
  data_artist : String
  data_album : String
  width : Nat
  height : Nat
  src : Option String
  title : Option String
  error : Option String
  listeners : List Listener
  deriving DecidableEq, Repr

/-- The template literal of line 88. -/
def art_title (entry : JVal) : Except Thrown String :=
  match getProp entry "name" with
  | .error e => .error e
  | .ok name =>
    match toStr name with
    | .error e => .error e
    | .ok n =>
      match getProp entry "artist" with
      | .error e => .error e
      | .ok artist =>
        match toStr artist with
        | .error e => .error e
        | .ok a => .ok ("Album art for " ++ n ++ " by " ++ a)

/-- Lines 66-104, the `try` block after the `await`: the size is chosen from the
larger side of the element, the image of that size (or the last one) is looked
up, and its URL, when truthy, is set on the element together with the title and
the `error` listener; otherwise `Image unavailable` is thrown. -/
def bind_art (img : Img) (artist album : String) (is_retry : Bool) (entry : JVal) :
    Except Thrown Unit × Img :=
  let img_size := max img.width img.height
  match getProp entry "image" with
  | .error e => (.error e, img)
  | .ok image =>
    match selectArt image (target_size img_size) with
    | .error e => (.error e, img)
    | .ok art =>
      match getProp art "#text" with
      | .error e => (.error e, img)
      | .ok url =>
        if truthy url then
          match toStr url with
          | .error e => (.error e, img)
          | .ok src =>
            let img1 := { img with src := some src }
            match art_title entry with
            | .error e => (.error e, img1)
            | .ok title =>
              (.ok (), { img1 with
                title := some title
                listeners := img1.listeners ++ [⟨artist, album, is_retry⟩] })
        else (.error (.error "Image unavailable"), img)

/-- The `error.message` of a caught value. -/
def message_of : Thrown → Except Thrown JVal
  | .error message => .ok (.str message)
  | .value v => getProp v "message"

/-- The `catch` block, lines 105-111, as the value it throws: the caught error
itself when its message is `Image unavailable`, otherwise a new `Error` with
the prefixed message. -/
def on_catch (error : Thrown) : Thrown :=
  match message_of error with
  | .error e => e
  | .ok message =>
    if strictEqStr message "Image unavailable" then error
    else
      match toStr message with
      | .error e => e
      | .ok text => .error ("Image fetch failed: " ++ text)

/-- The body of `fetch_album_art` from the point where the awaited promise of
`get_lastfm_entry` has settled. -/
def after_await (img : Img) (artist album : String) (is_retry : Bool)
    (settled : Except Thrown JVal) : Except Thrown Unit × Img :=
  match settled with
  | .error e => (.error (on_catch e), img)
  | .ok entry =>
    match bind_art img artist album is_retry entry with
    | (.error e, img1) => (.error (on_catch e), img1)
    | (.ok (), img1) => (.ok (), img1)

/-- How the promise of `fetch_album_art` settles, with the store and the element
it leaves and the requests it sent. -/
structure Run where
  result : Except Thrown Unit
  store : Store
  img : Img
  requests : List Request

/-- The `fetch_album_art` of the script, run to the settling of its promise. -/
def fetch_album_art (api_key : String) (net : Request → Reply) (store : Store) (img : Img)
    (artist album : String) (is_retry : Bool) : Run :=
  let looked := get_lastfm_entry api_key net store artist album
  let r := after_await img artist album is_retry looked.result
  { result := r.1, store := looked.store, img := r.2, requests := looked.requests }

/-! ## The page: calls in flight and `error` events -/

/-- A call of `fetch_album_art`, by its arguments; also the call suspended at
its `await` while the request is out.  The flag `caught` tells whether the promise it
returned was given the `.catch` of the page loop. -/
structure Call where
  artist : String
  album : String
  is_retry : Bool
  caught : Bool
  deriving DecidableEq, Repr

/-- One `<img>` element of the page with everything the script touches: the
store, the requests sent so far, every call of `fetch_album_art` made so far,
the calls waiting for a reply, and the rejections that no handler took. -/
structure Page where
  localStorage : Store
  img : Img
  requests : List Request
  calls : List Call
  pending : List Call
  unhandled : List Thrown

/-- The callback `e => img.dataset.error = e.message` of the page loop. -/
def page_catch (page : Page) (e : Thrown) : Page :=
  match message_of e with
  | .error e1 => { page with unhandled := page.unhandled ++ [e1] }
  | .ok message =>
    match toStr message with
    | .error e1 => { page with unhandled := page.unhandled ++ [e1] }
    | .ok text => { page with img := { page.img with error := some text } }

/-- A call of `fetch_album_art` runs from its `await` to the end, and its promise
settles: a rejection goes to the `.catch` of the page loop if the call has it,
and is unhandled otherwise. -/
def finish (page : Page) (call : Call) (settled : Except Thrown JVal) : Page :=
  match after_await page.img call.artist call.album call.is_retry settled with
  | (.ok (), img1) => { page with img := img1 }
  | (.error e, img1) =>
    if call.caught then page_catch { page with img := img1 } e
    else { page with img := img1, unhandled := page.unhandled ++ [e] }

/-- A call of `fetch_album_art` starts: `get_lastfm_entry` reads the store, and
either returns the cached entry, after which the call runs to its end, or sends
the request, and the call waits. -/
def invoke (api_key : String) (page : Page) (call : Call) : Page :=
  let page1 := { page with calls := page.calls ++ [call] }
  let entry := cached_entry page1.localStorage (make_key call.artist call.album)
  if truthy entry then finish page1 call (.ok entry)
  else
    { page1 with
      requests := page1.requests ++ [lastfm_request api_key call.artist call.album]
      pending := page1.pending ++ [call] }

/-- The reply to the request of the `i`-th waiting call arrives: the `then`
callbacks of `get_lastfm_entry` run, then the rest of the call. -/
def deliver (page : Page) (i : Nat) (reply : Reply) : Page :=
  match page.pending[i]? with
  | none => page
  | some call =>
    let page1 := { page with pending := page.pending.eraseIdx i }
    match reply with
    | .error e => finish page1 call (.error e)
    | .ok lastfm =>
      let r := on_response page1.localStorage (make_key call.artist call.album) lastfm
      finish { page1 with localStorage := r.2 } call r.1

/-- The body of the `error` listener, lines 90-101. -/
def on_error_event (api_key : String) (page : Page) (l : Listener) : Page :=
  let page1 := { page with
    localStorage := removeItem page.localStorage (make_key l.artist l.album) }
  if !l.is_retry then
    invoke api_key page1 { artist := l.album, album := l.artist, is_retry := true, caught := false }
  else
    { page1 with
      img := { page1.img with error := some "Failed to load image source after retry" } }

/-- The image fails to load: the `error` event runs the listeners that are on
the element when it is dispatched, in the order they were added. -/
def load_error (api_key : String) (page : Page) : Page :=
  page.img.listeners.foldl (on_error_event api_key) page

/-- The body of the entrypoint loop for the element, lines 119-120. -/
def entrypoint (api_key : String) (page : Page) : Page :=
  invoke api_key page
    { artist := page.img.data_artist, album := page.img.data_album,
      is_retry := false, caught := true }

/-- A page on which the script has not run yet. -/
def fresh_page (store : Store) (artist album : String) (width height : Nat) : Page :=
  { localStorage := store
    img := { data_artist := artist, data_album := album, width := width, height := height,
             src := none, title := none, error := none, listeners := [] }
    requests := [], calls := [], pending := [], unhandled := [] }

/-- The page once a call of `fetch_album_art` has settled as `run` did. -/
def page_after (page : Page) (call : Call) (run : Run) : Page :=
  let base : Page :=
    { localStorage := run.store, img := run.img, requests := page.requests ++ run.requests,
      calls := page.calls ++ [call], pending := page.pending, unhandled := page.unhandled }
  match run.result with
  | .ok _ => base
  | .error e =>
    if call.caught then page_catch base e
    else { base with unhandled := page.unhandled ++ [e] }

/-- What happens on the page after the script has started: the image fails to
load, or the reply to a waiting call arrives. -/
inductive Event where
  | load_failure : Event
  | reply (i : Nat) (r : Reply) : Event

/-- Whether the event is a load failure. -/
def Event.is_load_failure : Event → Bool
  | .load_failure => true
  | .reply _ _ => false

/-- One event on the page. -/
def step (api_key : String) (page : Page) : Event → Page
  | .load_failure => load_error api_key page
  | .reply i r => deliver page i r

/-- A sequence of events on the page, in order. -/
def run_events (api_key : String) (page : Page) (events : List Event) : Page :=
  events.foldl (step api_key) page

/-! ## Vocabulary of the statements -/

/-- Whether the `size` property of an element is the given label, as the callback
of `find` tests it. -/
def has_size (target : String) (x : JVal) : Bool :=
  match getProp x "size" with
  | .ok size => strictEqStr size target
  | .error _ => false

mutual
/-- Whether a value is one that `JSON.stringify` writes as it is: `undefined`,
an infinity or `-0` occurs nowhere in it. -/
def isJson : JVal → Bool
  | .undefined => false
  | .negZero => false
  | .inf _ => false
  | .arr items => isJsonItems items
  | .obj fields => isJsonFields fields
  | _ => true
/-- Whether every element of an array is a JSON value. -/
def isJsonItems : List JVal → Bool
  | [] => true
  | x :: rest => isJson x && isJsonItems rest
/-- Whether every property of an object has a JSON value. -/
def isJsonFields : List (String × JVal) → Bool
  | [] => true
  | (_, v) :: rest => isJson v && isJsonFields rest
end

/-- The ImageVariant of the specification, as an element of the `image` array: an
object whose `size` is one of the five labels and whose `#text` is a string. -/
def is_image_variant : JVal → Bool
  | .obj fields =>
    (match lookupField fields "size" with
     | .str label => ["small", "medium", "large", "extralarge", "mega"].contains label
     | _ => false) &&
    (match lookupField fields "#text" with
     | .str _ => true
     | _ => false)
  | _ => false

/-- The well-formed AlbumMetadata of the specification, as a stored entry: an
object with a string `name`, a string `artist` and an array `image` of image
variants. -/
def is_album_metadata : JVal → Bool
  | .obj fields =>
    (match lookupField fields "name" with
     | .str _ => true
     | _ => false) &&
    (match lookupField fields "artist" with
     | .str _ => true
     | _ => false) &&
    (match lookupField fields "image" with
     | .arr items => items.all is_image_variant
     | _ => false)
  | _ => false

/-! ## Sample data -/

/-- An image variant as last.fm lists it. -/
def variant (size url : String) : JVal :=
  .obj [("#text", .str url), ("size", .str size)]

/-- The ImageVariant of the specification: a size label and a URL. -/
structure ImageVariant where
  sizeLabel : String
  url : String
  deriving DecidableEq, Repr

/-- An image variant as the element of the `image` array that last.fm sends. -/
def ImageVariant.toJVal (v : ImageVariant) : JVal :=
  variant v.sizeLabel v.url

/-- An entry with one image of each size, whose URL is the name of its size. -/
def probe_entry : JVal :=
  .obj [("name", .str "Kid A"), ("artist", .str "Radiohead"),
        ("image", .arr [variant "small" "small", variant "medium" "medium",
          variant "large" "large", variant "extralarge" "extralarge", variant "mega" "mega"])]

/-- The entry the script builds from `sample_reply`. -/
def sample_entry : JVal :=
  .obj [("name", .str "Kid A"), ("artist", .str "Radiohead"),
        ("image", .arr [variant "small" "https://img/34.png", variant "mega" "https://img/600.png"])]

/-- A response body of `album.getinfo` for an album that last.fm knows. -/
def sample_reply : JVal :=
  .obj [("album", .obj [("name", .str "Kid A"), ("artist", .str "Radiohead"),
    ("image", .arr [variant "small" "https://img/34.png", variant "mega" "https://img/600.png"]),
    ("listeners", .num 12)])]

/-- A response body without an error indicator whose album lists no images. -/
def reply_without_images : JVal :=
  .obj [("album", .obj [("name", .str "Kid A"), ("artist", .str "Radiohead")])]

/-- A response body whose error indicator is an object with the message of the
script's own sentinel. -/
def reply_sentinel_error : JVal :=
  .obj [("error", .obj [("message", .str "Image unavailable")])]

/-- The error response of last.fm for an unknown album. -/
def reply_not_found : JVal :=
  .obj [("error", .num 6), ("message", .str "Album not found")]

/-- The page with one 100 by 100 `<img data-artist="Radiohead" data-album="Kid A">`
and an empty store, after the entrypoint loop has run and last.fm has answered
with `sample_reply`. -/
def bound_page : Page :=
  deliver (entrypoint "k" (fresh_page [] "Radiohead" "Kid A" 100 100)) 0 (.ok sample_reply)

/-- The bound page after an `error` event whose retry was answered with
`sample_reply` again. -/
def retried_page : Page :=
  deliver (load_error "k" bound_page) 0 (.ok sample_reply)

/-- The bound page after an `error` event whose retry was answered with
`reply_not_found`. -/
def failed_retry_page : Page :=
  deliver (load_error "k" bound_page) 0 (.ok reply_not_found)

/-- The fresh page after the entrypoint loop has run and last.fm has answered
with the given body. -/
def answered_page (body : JVal) : Page :=
  deliver (entrypoint "k" (fresh_page [] "Radiohead" "Kid A" 100 100)) 0 (.ok body)

/-- A `fetch_album_art` call on the fresh element and an empty store, answered
with the given body. -/
def answered_run (body : JVal) : Run :=
  fetch_album_art "k" (fun _ => .ok body) [] (fresh_page [] "Radiohead" "Kid A" 100 100).img
    "Radiohead" "Kid A" false


/-! ## The cache key -/

theorem append_sep_inj {α : Type} (c : α) :
    ∀ (a a' b b' : List α), c ∉ a → c ∉ a' → a ++ c :: b = a' ++ c :: b' → a = a' ∧ b = b'
  | [], [], b, b', _, _, h => by simpa using h
  | [], y :: a', b, b', _, h2, h => by
    simp only [List.nil_append, List.cons_append, List.cons.injEq] at h
    exact absurd (h.1 ▸ List.mem_cons_self _ _) h2
  | x :: a, [], b, b', h1, _, h => by
    simp only [List.nil_append, List.cons_append, List.cons.injEq] at h
    exact absurd (h.1 ▸ List.mem_cons_self _ _) h1
  | x :: a, y :: a', b, b', h1, h2, h => by
    simp only [List.cons_append, List.cons.injEq] at h
    have ih := append_sep_inj c a a' b b'
      (fun hm => h1 (List.mem_cons_of_mem _ hm)) (fun hm => h2 (List.mem_cons_of_mem _ hm)) h.2
    exact ⟨by rw [h.1, ih.1], ih.2⟩

theorem make_key_data (artist album : String) :
    (make_key artist album).data = album.data ++ '\n' :: artist.data := by
  simp [make_key, String.data_append]

/-- C10: `make_key artist album` is `album`, a newline, `artist`; and for names
without a newline, equal keys come from equal artists and equal albums. -/
theorem make_key_spec (artist album artist' album' : String)
    (_h1 : '\n' ∉ artist.data) (h2 : '\n' ∉ album.data)
    (_h3 : '\n' ∉ artist'.data) (h4 : '\n' ∉ album'.data) :
    make_key artist album = album ++ "\n" ++ artist ∧
    (make_key artist album = make_key artist' album' → artist = artist' ∧ album = album') := by
  refine ⟨rfl, fun h => ?_⟩
  have hd := congrArg String.data h
  rw [make_key_data, make_key_data] at hd
  have := append_sep_inj '\n' _ _ _ _ h2 h4 hd
  exact ⟨String.ext this.2, String.ext this.1⟩

/-- The key of one query, with the four names checked to have no newline. -/
theorem make_key_spec_witness :
    make_key "Radiohead" "Kid A" = "Kid A" ++ "\n" ++ "Radiohead" ∧
    (make_key "Radiohead" "Kid A" = make_key "Radiohead" "Kid A" →
      "Radiohead" = "Radiohead" ∧ "Kid A" = "Kid A") :=
  make_key_spec "Radiohead" "Kid A" "Radiohead" "Kid A" (by decide) (by decide) (by decide) (by decide)


/-! ## Size selection -/

theorem target_size_cases (m : Nat) :
    (m ≤ 25 ∧ target_size m = "small") ∨ (25 < m ∧ m ≤ 48 ∧ target_size m = "medium") ∨
    (48 < m ∧ m ≤ 130 ∧ target_size m = "large") ∨
    (130 < m ∧ m ≤ 225 ∧ target_size m = "extralarge") ∨ (225 < m ∧ target_size m = "mega") := by
  unfold target_size
  by_cases h1 : m ≤ 25
  · exact Or.inl ⟨h1, by simp [h1]⟩
  by_cases h2 : m ≤ 48
  · exact Or.inr (Or.inl ⟨by omega, h2, by simp [h1, h2]⟩)
  by_cases h3 : m ≤ 130
  · exact Or.inr (Or.inr (Or.inl ⟨by omega, h3, by simp [h1, h2, h3]⟩))
  by_cases h4 : m ≤ 225
  · exact Or.inr (Or.inr (Or.inr (Or.inl ⟨by omega, h4, by simp [h1, h2, h3, h4]⟩)))
  · exact Or.inr (Or.inr (Or.inr (Or.inr ⟨by omega, by simp [h1, h2, h3, h4]⟩)))

theorem probe_src (img : Img) (artist album : String) (is_retry : Bool) :
    (bind_art img artist album is_retry probe_entry).2.src
      = some (target_size (max img.width img.height)) := by
  rcases target_size_cases (max img.width img.height) with h | h | h | h | h <;>
    simp [bind_art, probe_entry, variant, getProp, lookupField, selectArt, findBySize, strictEqStr, nullish,
      truthy, toStr, art_title, h]

/-- C2: the size label is chosen from `max width height` by the thresholds 25, 48,
130 and 225, `mega` above them; on an entry that has an image of every size,
`fetch_album_art` binds the image of that label; the measure 20 gives `small`. -/
theorem size_label_thresholds (img : Img) (artist album : String) (is_retry : Bool) :
    (bind_art img artist album is_retry probe_entry).2.src
      = some (target_size (max img.width img.height)) ∧
    (target_size (max img.width img.height) = "small" ↔ max img.width img.height ≤ 25) ∧
    (target_size (max img.width img.height) = "medium" ↔
      25 < max img.width img.height ∧ max img.width img.height ≤ 48) ∧
    (target_size (max img.width img.height) = "large" ↔
      48 < max img.width img.height ∧ max img.width img.height ≤ 130) ∧
    (target_size (max img.width img.height) = "extralarge" ↔
      130 < max img.width img.height ∧ max img.width img.height ≤ 225) ∧
    (target_size (max img.width img.height) = "mega" ↔ 225 < max img.width img.height) ∧
    target_size 20 = "small" := by
  generalize hm : max img.width img.height = measure
  refine ⟨hm ▸ probe_src img artist album is_retry, ?_, ?_, ?_, ?_, ?_, by decide⟩ <;>
    rcases target_size_cases measure with h | h | h | h | h <;>
    simp [h] <;> omega

theorem getProp_ok_of_not_nullish (x : JVal) (name : String) (h : nullish x = false) :
    ∃ v, getProp x name = .ok v := by
  cases x <;> simp [getProp, nullish] at h ⊢

theorem findBySize_eq (target : String) :
    ∀ items : List JVal, (∀ x ∈ items, nullish x = false) →
      findBySize items target = .ok ((items.find? (has_size target)).getD .undefined)
  | [], _ => rfl
  | x :: rest, h => by
    obtain ⟨v, hv⟩ := getProp_ok_of_not_nullish x "size" (h x (List.mem_cons_self _ _))
    have ih := findBySize_eq target rest (fun y hy => h y (List.mem_cons_of_mem _ hy))
    by_cases hs : strictEqStr v target = true
    · simp [findBySize, hv, hs, has_size, List.find?]
    · simp [findBySize, hv, hs, has_size, List.find?, ih]

theorem lastItem_eq : ∀ (items : List JVal) (h : items ≠ []), lastItem items = items.getLast h
  | [x], _ => rfl
  | x :: y :: rest, _ => by
    simp only [lastItem, List.getLast_cons_cons]
    exact lastItem_eq (y :: rest) (by simp)

/-- On a non-empty array with no `undefined` or `null` element the selection does
not throw: it yields the first element that the callback of `find` accepts, or
the last element. -/
theorem selectArt_of_not_nullish (measure : Nat) (items : List JVal) (hne : items ≠ [])
    (hvar : ∀ x ∈ items, nullish x = false) :
    selectArt (.arr items) (target_size measure) =
      .ok (match items.find? (has_size (target_size measure)) with
           | some variant => variant
           | none => items.getLast hne) := by
  simp only [selectArt, findBySize_eq _ items hvar]
  cases hf : items.find? (has_size (target_size measure)) with
  | none => simp [nullish, lastItem_eq items hne]
  | some v =>
    have hv : nullish v = false := hvar v (List.mem_of_find?_eq_some hf)
    simp [hv]

theorem has_size_toJVal (target : String) (v : ImageVariant) :
    has_size target v.toJVal = decide (v.sizeLabel = target) := by
  by_cases h : v.sizeLabel = target <;>
    simp [has_size, ImageVariant.toJVal, variant, getProp, lookupField, strictEqStr, h]

theorem find_toJVal (target : String) :
    ∀ variants : List ImageVariant,
      (variants.map ImageVariant.toJVal).find? (has_size target) =
        (variants.find? (fun v => decide (v.sizeLabel = target))).map ImageVariant.toJVal
  | [] => rfl
  | v :: rest => by
    by_cases h : v.sizeLabel = target
    · simp [List.find?, has_size_toJVal, h]
    · simp [List.find?, has_size_toJVal, h, find_toJVal target rest]

/-- C1: on every non-empty list of image variants and for every measure, the
selection does not throw and yields the first variant whose size label is the
label of the measure, or the last variant when no label matches. -/
theorem select_total_exact (measure : Nat) (variants : List ImageVariant)
    (hne : variants ≠ []) :
    selectArt (.arr (variants.map ImageVariant.toJVal)) (target_size measure) =
      .ok (ImageVariant.toJVal
        (match variants.find? (fun v => decide (v.sizeLabel = target_size measure)) with
         | some v => v
         | none => variants.getLast hne)) := by
  have hne2 : variants.map ImageVariant.toJVal ≠ [] := by simpa using hne
  have hnn : ∀ x ∈ variants.map ImageVariant.toJVal, nullish x = false := by
    intro x hx
    obtain ⟨v, _, rfl⟩ := List.mem_map.mp hx
    rfl
  rw [selectArt_of_not_nullish measure _ hne2 hnn, find_toJVal]
  cases variants.find? (fun v => decide (v.sizeLabel = target_size measure)) with
  | some v => rfl
  | none => simp [List.getLast_map]

/-- The selection at the measure 20 finds `small` behind `mega`; at the measure
40, with no `medium` in the list, it falls back to the last variant. -/
theorem select_total_exact_witness :
    ([⟨"mega", "m"⟩, ⟨"small", "s"⟩] : List ImageVariant) ≠ [] ∧
    selectArt (.arr [variant "mega" "m", variant "small" "s"]) (target_size 20)
      = .ok (variant "small" "s") ∧
    selectArt (.arr [variant "small" "s", variant "large" "l"]) (target_size 40)
      = .ok (variant "large" "l") :=
  ⟨by simp,
   (select_total_exact 20 [⟨"mega", "m"⟩, ⟨"small", "s"⟩] (by simp)).trans rfl,
   (select_total_exact 40 [⟨"small", "s"⟩, ⟨"large", "l"⟩] (by simp)).trans rfl⟩

/-! ## The last.fm lookup -/

mutual
theorem jsonValue_of_isJson : ∀ v : JVal, isJson v = true → jsonValue v = v
  | .undefined, h => by simp [isJson] at h
  | .null, _ => rfl
  | .bool _, _ => rfl
  | .num _, _ => rfl
  | .negZero, h => by simp [isJson] at h
  | .inf _, h => by simp [isJson] at h
  | .str _, _ => rfl
  | .arr items, h => by
    simp only [isJson] at h
    simp only [jsonValue, jsonItems_of_isJson items h]
  | .obj fields, h => by
    simp only [isJson] at h
    simp only [jsonValue, jsonFields_of_isJson fields h]
theorem jsonItems_of_isJson : ∀ items : List JVal, isJsonItems items = true → jsonItems items = items
  | [], _ => rfl
  | x :: rest, h => by
    simp only [isJsonItems, Bool.and_eq_true] at h
    simp only [jsonItems, jsonValue_of_isJson x h.1, jsonItems_of_isJson rest h.2]
theorem jsonFields_of_isJson :
    ∀ fields : List (String × JVal), isJsonFields fields = true → jsonFields fields = fields
  | [], _ => rfl
  | (k, v) :: rest, h => by
    simp only [isJsonFields, Bool.and_eq_true] at h
    have hv := jsonValue_of_isJson v h.1
    have hr := jsonFields_of_isJson rest h.2
    cases v <;> simp_all [jsonFields, isJson]
end

theorem jsonFields_length_le :
    ∀ fields : List (String × JVal), (jsonFields fields).length ≤ fields.length
  | [] => by simp [jsonFields]
  | (k, v) :: rest => by
    have ih := jsonFields_length_le rest
    cases v <;> simp [jsonFields] <;> omega

mutual
theorem isJson_of_jsonValue : ∀ v : JVal, jsonValue v = v → isJson v = true
  | .undefined, h => by simp [jsonValue] at h
  | .null, _ => rfl
  | .bool _, _ => rfl
  | .num _, _ => rfl
  | .negZero, h => by simp [jsonValue] at h
  | .inf _, h => by simp [jsonValue] at h
  | .str _, _ => rfl
  | .arr items, h => by
    simp only [jsonValue, JVal.arr.injEq] at h
    simp only [isJson, isJsonItems_of_jsonItems items h]
  | .obj fields, h => by
    simp only [jsonValue, JVal.obj.injEq] at h
    simp only [isJson, isJsonFields_of_jsonFields fields h]
theorem isJsonItems_of_jsonItems :
    ∀ items : List JVal, jsonItems items = items → isJsonItems items = true
  | [], _ => rfl
  | x :: rest, h => by
    simp only [jsonItems, List.cons.injEq] at h
    simp only [isJsonItems, isJson_of_jsonValue x h.1, isJsonItems_of_jsonItems rest h.2,
      Bool.and_self]
theorem isJsonFields_of_jsonFields :
    ∀ fields : List (String × JVal), jsonFields fields = fields → isJsonFields fields = true
  | [], _ => rfl
  | (k, v) :: rest, h => by
    have hlen := jsonFields_length_le rest
    by_cases hv : v = .undefined
    · subst hv
      simp only [jsonFields] at h
      have := congrArg List.length h
      simp only [List.length_cons] at this
      omega
    · have h2 : jsonFields ((k, v) :: rest) = (k, jsonValue v) :: jsonFields rest := by
        cases v <;> simp_all [jsonFields]
      rw [h2] at h
      simp only [List.cons.injEq, Prod.mk.injEq, true_and] at h
      simp only [isJsonFields, isJson_of_jsonValue v h.1, isJsonFields_of_jsonFields rest h.2,
        Bool.and_self]
end

theorem isJson_iff_jsonValue (v : JVal) : isJson v = true ↔ jsonValue v = v :=
  ⟨jsonValue_of_isJson v, isJson_of_jsonValue v⟩

theorem cached_entry_nil (key : String) : cached_entry [] key = .null := rfl

theorem getItem_setItem (store : Store) (key : String) (text : StoredText) :
    getItem (setItem store key text) key = some text := by
  simp [setItem, getItem]

theorem entry_of_response_obj (lastfm entry : JVal) (h : entry_of_response lastfm = .ok entry) :
    ∃ name artist image, entry = .obj [("name", name), ("artist", artist), ("image", image)] := by
  unfold entry_of_response at h
  split at h
  · simp at h
  · split at h
    · simp at h
    · split at h
      · simp at h
      · split at h
        · exact ⟨_, _, _, (Except.ok.inj h).symm⟩
        all_goals simp at h

theorem first_call_on_empty_store (api_key : String) (net : Request → Reply)
    (artist album : String) (entry : JVal)
    (hfirst : (get_lastfm_entry api_key net [] artist album).result = .ok entry) :
    (∃ name artist image, entry = .obj [("name", name), ("artist", artist), ("image", image)]) ∧
    (get_lastfm_entry api_key net [] artist album).store
      = [(make_key artist album, JSON_stringify entry)] ∧
    (get_lastfm_entry api_key net [] artist album).requests
      = [lastfm_request api_key artist album] := by
  simp only [get_lastfm_entry, cached_entry_nil, truthy] at hfirst ⊢
  cases hnet : net (lastfm_request api_key artist album) with
  | error e => simp [hnet] at hfirst
  | ok lastfm =>
    simp only [hnet, on_response] at hfirst ⊢
    cases hent : entry_of_response lastfm with
    | error e => simp [hent] at hfirst
    | ok entry1 =>
      simp only [hent] at hfirst ⊢
      cases hfirst
      exact ⟨entry_of_response_obj _ _ hent, by simp [setItem, removeItem], by simp⟩

/-- C3, amended: after a call on an empty store that got its entry from the
network, a second call for the same artist and album sends no request, leaves
the store as it is and returns the stored entry as `JSON.parse` reads it; that
is the entry of the first call exactly when `JSON.stringify` writes that entry
as it is: no `undefined` (a missing `name`, `artist` or `image`), no infinity
and no `-0` in it. -/
theorem second_call_is_cache_hit (api_key : String) (net net2 : Request → Reply)
    (artist album : String) (entry : JVal)
    (hfirst : (get_lastfm_entry api_key net [] artist album).result = .ok entry) :
    (get_lastfm_entry api_key net2 (get_lastfm_entry api_key net [] artist album).store
      artist album).requests = [] ∧
    (get_lastfm_entry api_key net2 (get_lastfm_entry api_key net [] artist album).store
      artist album).store = (get_lastfm_entry api_key net [] artist album).store ∧
    (get_lastfm_entry api_key net2 (get_lastfm_entry api_key net [] artist album).store
      artist album).result = .ok (jsonValue entry) ∧
    ((get_lastfm_entry api_key net2 (get_lastfm_entry api_key net [] artist album).store
        artist album).result = (get_lastfm_entry api_key net [] artist album).result ↔
      isJson entry = true) := by
  have key :
      let first := get_lastfm_entry api_key net [] artist album
      let second := get_lastfm_entry api_key net2 first.store artist album
      second.requests = [] ∧ second.store = first.store ∧
      second.result = .ok (jsonValue entry) ∧
      (second.result = first.result ↔ isJson entry = true) := by
    intro first second
    obtain ⟨⟨name, art, image, hobj⟩, hstore, _⟩ :=
      first_call_on_empty_store api_key net artist album entry hfirst
    have hcached : cached_entry first.store (make_key artist album) = jsonValue entry := by
      simp only [first, hstore, hobj, JSON_stringify, cached_entry, getItem, JSON_parse, beq_self_eq_true,
        if_true]
    have htruthy : truthy (jsonValue entry) = true := by
      rw [hobj]; simp [jsonValue, truthy]
    have hsecond : second = { result := .ok (jsonValue entry), store := first.store, requests := [] } := by
      simp only [second, get_lastfm_entry, hcached, htruthy, if_true]
    refine ⟨by rw [hsecond], by rw [hsecond], by rw [hsecond], ?_⟩
    rw [hsecond, hfirst, isJson_iff_jsonValue]
    exact ⟨fun h => Except.ok.inj h, fun h => by rw [h]⟩
  exact key

/-- The two calls for one album: the second is answered from the store while
the network is down. -/
theorem second_call_is_cache_hit_witness :
    (get_lastfm_entry "k" (fun _ => .ok sample_reply) [] "Radiohead" "Kid A").result = .ok sample_entry ∧
    isJson sample_entry = true ∧
    (get_lastfm_entry "k" (fun _ => .error (.error "offline"))
      (get_lastfm_entry "k" (fun _ => .ok sample_reply) [] "Radiohead" "Kid A").store
      "Radiohead" "Kid A").requests = [] ∧
    (get_lastfm_entry "k" (fun _ => .error (.error "offline"))
      (get_lastfm_entry "k" (fun _ => .ok sample_reply) [] "Radiohead" "Kid A").store
      "Radiohead" "Kid A").result = .ok sample_entry :=
  have h := second_call_is_cache_hit "k" (fun _ => .ok sample_reply) (fun _ => .error (.error "offline"))
    "Radiohead" "Kid A" sample_entry rfl
  ⟨rfl, rfl, h.1, (h.2.2.2.mpr rfl).trans rfl⟩

/-- C3 as stated fails: for the response without images the first call returns
an entry whose `image` is `undefined`; the second call sends no request, but the
entry it reads back has no `image` property and is not the one first returned. -/
theorem second_call_differs_without_images :
    (get_lastfm_entry "k" (fun _ => .ok reply_without_images) [] "Radiohead" "Kid A").result =
      .ok (.obj [("name", .str "Kid A"), ("artist", .str "Radiohead"), ("image", .undefined)]) ∧
    (get_lastfm_entry "k" (fun _ => .ok reply_without_images)
      (get_lastfm_entry "k" (fun _ => .ok reply_without_images) [] "Radiohead" "Kid A").store
      "Radiohead" "Kid A").requests = [] ∧
    (get_lastfm_entry "k" (fun _ => .ok reply_without_images)
      (get_lastfm_entry "k" (fun _ => .ok reply_without_images) [] "Radiohead" "Kid A").store
      "Radiohead" "Kid A").result =
      .ok (.obj [("name", .str "Kid A"), ("artist", .str "Radiohead")]) ∧
    (get_lastfm_entry "k" (fun _ => .ok reply_without_images)
      (get_lastfm_entry "k" (fun _ => .ok reply_without_images) [] "Radiohead" "Kid A").store
      "Radiohead" "Kid A").result ≠
    (get_lastfm_entry "k" (fun _ => .ok reply_without_images) [] "Radiohead" "Kid A").result := by
  refine ⟨rfl, rfl, rfl, ?_⟩
  have h1 : (get_lastfm_entry "k" (fun _ => .ok reply_without_images) [] "Radiohead" "Kid A").result =
      .ok (.obj [("name", .str "Kid A"), ("artist", .str "Radiohead"), ("image", .undefined)]) :=
    rfl
  have h2 : (get_lastfm_entry "k" (fun _ => .ok reply_without_images)
      (get_lastfm_entry "k" (fun _ => .ok reply_without_images) [] "Radiohead" "Kid A").store
      "Radiohead" "Kid A").result =
      .ok (.obj [("name", .str "Kid A"), ("artist", .str "Radiohead")]) := rfl
  rw [h1, h2]
  simp

theorem get_lastfm_entry_hit (api_key : String) (net : Request → Reply) (store : Store)
    (artist album : String)
    (h : truthy (cached_entry store (make_key artist album)) = true) :
    get_lastfm_entry api_key net store artist album =
      { result := .ok (cached_entry store (make_key artist album)), store := store,
        requests := [] } := by
  simp only [get_lastfm_entry, h, if_true]

theorem get_lastfm_entry_miss (api_key : String) (net : Request → Reply) (store : Store)
    (artist album : String)
    (h : truthy (cached_entry store (make_key artist album)) = false) :
    get_lastfm_entry api_key net store artist album =
      match net (lastfm_request api_key artist album) with
      | .error e =>
        { result := .error e, store := store, requests := [lastfm_request api_key artist album] }
      | .ok lastfm =>
        { result := (on_response store (make_key artist album) lastfm).1,
          store := (on_response store (make_key artist album) lastfm).2,
          requests := [lastfm_request api_key artist album] } := by
  simp only [get_lastfm_entry, h, Bool.false_eq_true, if_false]

theorem on_response_result (store : Store) (key : String) (lastfm : JVal) :
    (on_response store key lastfm).1 = entry_of_response lastfm := by
  unfold on_response
  cases entry_of_response lastfm <;> rfl

/-- C4, amended: the stored value is returned, with no request and the store
untouched, exactly when the item under the key is there, parses and is truthy;
otherwise exactly one request is sent and the call settles as it does on an
empty store, so that a failed parse is never what it throws. -/
theorem cache_hit_iff_truthy (api_key : String) (net : Request → Reply) (store : Store)
    (artist album : String) :
    ((∃ v, JSON_parse (getItem store (make_key artist album)) = .ok v ∧ truthy v = true) →
      (get_lastfm_entry api_key net store artist album).requests = [] ∧
      (get_lastfm_entry api_key net store artist album).result
        = JSON_parse (getItem store (make_key artist album)) ∧
      (get_lastfm_entry api_key net store artist album).store = store) ∧
    (¬ (∃ v, JSON_parse (getItem store (make_key artist album)) = .ok v ∧ truthy v = true) →
      (get_lastfm_entry api_key net store artist album).requests
        = [lastfm_request api_key artist album] ∧
      (get_lastfm_entry api_key net store artist album).result
        = (get_lastfm_entry api_key net [] artist album).result) := by
  have key :
        let r := get_lastfm_entry api_key net store artist album
        let parsed := JSON_parse (getItem store (make_key artist album))
        ((∃ v, parsed = .ok v ∧ truthy v = true) →
          r.requests = [] ∧ r.result = parsed ∧ r.store = store) ∧
        (¬ (∃ v, parsed = .ok v ∧ truthy v = true) →
          r.requests = [lastfm_request api_key artist album] ∧
          r.result = (get_lastfm_entry api_key net [] artist album).result)
      := by
    intro r parsed
    constructor
    · rintro ⟨v, hv, ht⟩
      have hc : cached_entry store (make_key artist album) = v := by
        simp only [cached_entry]
        rw [show JSON_parse (getItem store (make_key artist album)) = .ok v from hv]
      have hr := get_lastfm_entry_hit api_key net store artist album (by rw [hc]; exact ht)
      rw [hc] at hr
      exact ⟨by rw [show r = _ from hr], by rw [show r = _ from hr]; exact hv.symm,
        by rw [show r = _ from hr]⟩
    · intro hno
      have hf : truthy (cached_entry store (make_key artist album)) = false := by
        simp only [cached_entry]
        cases hp : JSON_parse (getItem store (make_key artist album)) with
        | error e => rfl
        | ok v =>
          cases ht : truthy v with
          | false => rfl
          | true => exact absurd ⟨v, hp, ht⟩ hno
      have hr := get_lastfm_entry_miss api_key net store artist album hf
      have h0 := get_lastfm_entry_miss api_key net [] artist album rfl
      rw [show r = _ from hr, h0]
      cases net (lastfm_request api_key artist album) with
      | error e => exact ⟨rfl, rfl⟩
      | ok lastfm => exact ⟨rfl, by simp only [on_response_result]⟩
  exact key

/-- C4 as stated fails: the stored text of an empty object is no album metadata,
and yet it is returned with no request. -/
theorem hit_without_metadata_shape :
    JSON_parse (getItem [(make_key "Radiohead" "Kid A", .json (.obj []))]
      (make_key "Radiohead" "Kid A")) = .ok (.obj []) ∧
    is_album_metadata (.obj []) = false ∧
    (get_lastfm_entry "k" (fun _ => .ok sample_reply)
      [(make_key "Radiohead" "Kid A", .json (.obj []))] "Radiohead" "Kid A").result
      = .ok (.obj []) ∧
    (get_lastfm_entry "k" (fun _ => .ok sample_reply)
      [(make_key "Radiohead" "Kid A", .json (.obj []))] "Radiohead" "Kid A").requests = [] :=
  ⟨rfl, rfl, rfl, rfl⟩

theorem on_catch_error (m : String) (h : m ≠ "Image unavailable") :
    on_catch (.error m) = .error ("Image fetch failed: " ++ m) := by
  simp [on_catch, message_of, strictEqStr, toStr, h]

/-- C8, amended: for a response without error indicator whose album object has
no `image` or an empty one, `get_lastfm_entry` returns the entry and stores it;
`fetch_album_art` then fails with a prefixed message and leaves the element as
it was. -/
theorem missing_images_are_cached (api_key : String) (net : Request → Reply) (store : Store)
    (img : Img) (artist album : String) (is_retry : Bool) (top fields : List (String × JVal))
    (hmiss : truthy (cached_entry store (make_key artist album)) = false)
    (hnet : net (lastfm_request api_key artist album) = .ok (.obj top))
    (herror : truthy (lookupField top "error") = false)
    (halbum : lookupField top "album" = .obj fields)
    (himage : lookupField fields "image" = .undefined ∨ lookupField fields "image" = .arr []) :
    (get_lastfm_entry api_key net store artist album).result =
      .ok (.obj [("name", lookupField fields "name"), ("artist", lookupField fields "artist"),
        ("image", lookupField fields "image")]) ∧
    getItem (get_lastfm_entry api_key net store artist album).store (make_key artist album) =
      some (JSON_stringify (.obj [("name", lookupField fields "name"),
        ("artist", lookupField fields "artist"), ("image", lookupField fields "image")])) ∧
    (∃ m, (fetch_album_art api_key net store img artist album is_retry).result =
      .error (.error ("Image fetch failed: " ++ m))) ∧
    (fetch_album_art api_key net store img artist album is_retry).img = img ∧
    (fetch_album_art api_key net store img artist album is_retry).store =
      (get_lastfm_entry api_key net store artist album).store := by
  have key :
        let entry := JVal.obj [("name", lookupField fields "name"),
          ("artist", lookupField fields "artist"), ("image", lookupField fields "image")]
        let looked := get_lastfm_entry api_key net store artist album
        let run := fetch_album_art api_key net store img artist album is_retry
        looked.result = .ok entry ∧
        getItem looked.store (make_key artist album) = some (JSON_stringify entry) ∧
        (∃ m, run.result = .error (.error ("Image fetch failed: " ++ m))) ∧
        run.img = img ∧ run.store = looked.store
      := by
    intro entry looked run
    have hent : entry_of_response (.obj top) = .ok entry := by
      simp [entry_of_response, getProp, herror, halbum, entry]
    have hl : looked = Lookup.mk (.ok entry)
        (setItem store (make_key artist album) (JSON_stringify entry))
        [lastfm_request api_key artist album] := by
      simp only [looked, get_lastfm_entry_miss api_key net store artist album hmiss, hnet, on_response,
        hent]
    have hb : ∃ m, m ≠ "Image unavailable" ∧
        bind_art img artist album is_retry entry = (.error (.error m), img) := by
      rcases himage with h | h
      · exact ⟨"Cannot read properties of undefined (reading 'find')", by decide, by
          simp [bind_art, getProp, lookupField, entry, h, selectArt, readOfNullish]⟩
      · exact ⟨"Cannot read properties of undefined (reading '#text')", by decide, by
          simp [bind_art, getProp, lookupField, entry, h, selectArt, findBySize, nullish, lastItem,
            readOfNullish]⟩
    obtain ⟨m, hm, hbind⟩ := hb
    have hrun : run = Run.mk (.error (.error ("Image fetch failed: " ++ m)))
        looked.store img looked.requests := by
      simp only [run, fetch_album_art]
      rw [show get_lastfm_entry api_key net store artist album = looked from rfl]
      simp only [hl, after_await, hbind, on_catch_error m hm]
    exact ⟨by rw [hl], by rw [hl]; exact getItem_setItem _ _ _, ⟨m, by rw [hrun]⟩, by rw [hrun],
      by rw [hrun]⟩
  exact key

/-- The response without images, on an empty store. -/
theorem missing_images_are_cached_witness :
    (get_lastfm_entry "k" (fun _ => .ok reply_without_images) [] "Radiohead" "Kid A").result =
      .ok (.obj [("name", .str "Kid A"), ("artist", .str "Radiohead"), ("image", .undefined)]) ∧
    (∃ m, (fetch_album_art "k" (fun _ => .ok reply_without_images) []
        (fresh_page [] "Radiohead" "Kid A" 100 100).img "Radiohead" "Kid A" false).result =
      .error (.error ("Image fetch failed: " ++ m))) :=
  have h := missing_images_are_cached "k" (fun _ => .ok reply_without_images) []
    (fresh_page [] "Radiohead" "Kid A" 100 100).img "Radiohead" "Kid A" false
    [("album", .obj [("name", .str "Kid A"), ("artist", .str "Radiohead")])]
    [("name", .str "Kid A"), ("artist", .str "Radiohead")] rfl rfl rfl rfl (Or.inl rfl)
  ⟨h.1, h.2.2.1⟩

/-- C8 as stated fails: on the response without images `get_lastfm_entry` does
not fail; it returns an entry whose `image` is `undefined` and stores it. -/
theorem entry_without_images_returned :
    (get_lastfm_entry "k" (fun _ => .ok reply_without_images) [] "Radiohead" "Kid A").result =
      .ok (.obj [("name", .str "Kid A"), ("artist", .str "Radiohead"), ("image", .undefined)]) ∧
    (get_lastfm_entry "k" (fun _ => .ok reply_without_images) [] "Radiohead" "Kid A").store =
      [(make_key "Radiohead" "Kid A",
        .json (.obj [("name", .str "Kid A"), ("artist", .str "Radiohead")]))] :=
  ⟨rfl, rfl⟩

/-! ## The page -/

theorem finish_eq (page : Page) (call : Call) (settled : Except Thrown JVal) :
    finish page call settled =
      match (after_await page.img call.artist call.album call.is_retry settled).1 with
      | .ok _ =>
        { page with img := (after_await page.img call.artist call.album call.is_retry settled).2 }
      | .error e =>
        if call.caught then page_catch
          { page with img := (after_await page.img call.artist call.album call.is_retry settled).2 } e
        else
          { page with
            img := (after_await page.img call.artist call.album call.is_retry settled).2
            unhandled := page.unhandled ++ [e] } := by
  unfold finish
  rcases h : after_await page.img call.artist call.album call.is_retry settled with ⟨r, img1⟩
  cases r <;> rfl

theorem invoke_then_deliver (api_key : String) (page : Page) (call : Call) (reply : Reply)
    (hidle : page.pending = []) :
    (if truthy (cached_entry page.localStorage (make_key call.artist call.album))
      then invoke api_key page call
      else deliver (invoke api_key page call) 0 reply) =
    page_after page call
      (fetch_album_art api_key (fun _ => reply) page.localStorage page.img
        call.artist call.album call.is_retry) := by
  cases ht : truthy (cached_entry page.localStorage (make_key call.artist call.album)) with
  | true =>
    simp only [if_true, invoke, ht, finish_eq, page_after, fetch_album_art,
      get_lastfm_entry_hit api_key _ page.localStorage call.artist call.album ht, List.append_nil]
  | false =>
    simp only [Bool.false_eq_true, if_false, invoke, ht, deliver, hidle, List.nil_append,
      List.getElem?_cons_zero, List.eraseIdx_cons_zero, page_after, fetch_album_art,
      get_lastfm_entry_miss api_key _ page.localStorage call.artist call.album ht]
    cases reply with
    | error e => simp only [finish_eq]
    | ok lastfm => simp only [finish_eq]

theorem bind_art_frame (img : Img) (artist album : String) (is_retry : Bool) (entry : JVal) :
    (bind_art img artist album is_retry entry).2.error = img.error ∧
    ((bind_art img artist album is_retry entry).2.listeners = img.listeners ∨
     (bind_art img artist album is_retry entry).2.listeners
        = img.listeners ++ [⟨artist, album, is_retry⟩]) := by
  unfold bind_art
  dsimp only
  cases getProp entry "image" with
  | error e => simp
  | ok image =>
    dsimp only
    cases selectArt image (target_size (max img.width img.height)) with
    | error e => simp
    | ok art =>
      dsimp only
      cases getProp art "#text" with
      | error e => simp
      | ok url =>
        dsimp only
        cases truthy url with
        | false => simp
        | true =>
          simp only [if_true]
          cases toStr url with
          | error e => simp
          | ok src =>
            dsimp only
            cases art_title entry <;> simp

theorem after_await_frame (img : Img) (artist album : String) (is_retry : Bool)
    (settled : Except Thrown JVal) :
    (after_await img artist album is_retry settled).2.error = img.error ∧
    ((after_await img artist album is_retry settled).2.listeners = img.listeners ∨
     (after_await img artist album is_retry settled).2.listeners
        = img.listeners ++ [⟨artist, album, is_retry⟩]) := by
  unfold after_await
  cases settled with
  | error e => simp
  | ok entry =>
    dsimp only
    have h := bind_art_frame img artist album is_retry entry
    rcases hb : bind_art img artist album is_retry entry with ⟨r, img1⟩
    rw [hb] at h
    cases r <;> exact h

theorem page_catch_frame (page : Page) (e : Thrown) :
    (page_catch page e).calls = page.calls ∧
    (page_catch page e).localStorage = page.localStorage ∧
    (page_catch page e).img.listeners = page.img.listeners := by
  unfold page_catch
  cases message_of e with
  | error e1 => simp
  | ok message =>
    dsimp only
    cases toStr message <;> simp

theorem finish_frame (page : Page) (call : Call) (settled : Except Thrown JVal) :
    (finish page call settled).calls = page.calls ∧
    (finish page call settled).localStorage = page.localStorage ∧
    (∀ l ∈ page.img.listeners, l ∈ (finish page call settled).img.listeners) := by
  have h := (after_await_frame page.img call.artist call.album call.is_retry settled).2
  have hsub : ∀ l ∈ page.img.listeners,
      l ∈ (after_await page.img call.artist call.album call.is_retry settled).2.listeners := by
    intro l hl
    rcases h with h | h <;> rw [h]
    · exact hl
    · exact List.mem_append_left _ hl
  rw [finish_eq]
  cases (after_await page.img call.artist call.album call.is_retry settled).1 with
  | ok _ => exact ⟨rfl, rfl, hsub⟩
  | error e =>
    dsimp only
    by_cases hc : call.caught = true
    · rw [if_pos hc]
      obtain ⟨h1, h2, h3⟩ := page_catch_frame
        { page with img := (after_await page.img call.artist call.album call.is_retry settled).2 } e
      exact ⟨h1, h2, fun l hl => by rw [h3]; exact hsub l hl⟩
    · rw [if_neg hc]
      exact ⟨rfl, rfl, hsub⟩

theorem invoke_frame (api_key : String) (page : Page) (call : Call) :
    (invoke api_key page call).calls = page.calls ++ [call] ∧
    (invoke api_key page call).localStorage = page.localStorage ∧
    (∀ l ∈ page.img.listeners, l ∈ (invoke api_key page call).img.listeners) := by
  unfold invoke
  dsimp only
  split
  · exact finish_frame { page with calls := page.calls ++ [call] } call _
  · exact ⟨rfl, rfl, fun l hl => hl⟩

theorem deliver_frame (page : Page) (i : Nat) (reply : Reply) :
    (deliver page i reply).calls = page.calls ∧
    (∀ l ∈ page.img.listeners, l ∈ (deliver page i reply).img.listeners) := by
  unfold deliver
  cases page.pending[i]? with
  | none => exact ⟨rfl, fun l hl => hl⟩
  | some call =>
    dsimp only
    cases reply with
    | error e =>
      dsimp only
      have h := finish_frame { page with pending := page.pending.eraseIdx i } call (.error e)
      exact ⟨h.1, h.2.2⟩
    | ok lastfm =>
      dsimp only
      have h := finish_frame
        { page with
          pending := page.pending.eraseIdx i
          localStorage := (on_response page.localStorage (make_key call.artist call.album) lastfm).2 }
        call (on_response page.localStorage (make_key call.artist call.album) lastfm).1
      exact ⟨h.1, h.2.2⟩

theorem getItem_removeItem (store : Store) (key : String) :
    getItem (removeItem store key) key = none := by
  induction store with
  | nil => rfl
  | cons kv rest ih =>
    obtain ⟨k, v⟩ := kv
    by_cases h : k = key
    · simpa [removeItem, List.filter_cons, h] using ih
    · simpa [removeItem, List.filter_cons, h, getItem] using ih

/-- The listener of a call that was not a retry removes the item of its own
artist and album, and calls `fetch_album_art` with the two exchanged. -/
theorem on_error_event_first (api_key : String) (page : Page) (artist album : String) :
    (on_error_event api_key page ⟨artist, album, false⟩).calls =
      page.calls ++ [⟨album, artist, true, false⟩] ∧
    getItem (on_error_event api_key page ⟨artist, album, false⟩).localStorage
      (make_key artist album) = none := by
  simp only [on_error_event, Bool.not_false, if_true]
  obtain ⟨h1, h2, _⟩ := invoke_frame api_key
    { page with localStorage := removeItem page.localStorage (make_key artist album) }
    ⟨album, artist, true, false⟩
  exact ⟨h1, by rw [h2]; exact getItem_removeItem _ _⟩

theorem on_error_event_frame (api_key : String) (page : Page) (l : Listener) :
    (on_error_event api_key page l).calls.length
      = page.calls.length + (if l.is_retry then 0 else 1) ∧
    (∀ l' ∈ page.img.listeners, l' ∈ (on_error_event api_key page l).img.listeners) := by
  unfold on_error_event
  cases hl : l.is_retry with
  | false =>
    simp only [Bool.not_false, if_true, Bool.false_eq_true, if_false]
    obtain ⟨h1, _, h3⟩ := invoke_frame api_key
      { page with localStorage := removeItem page.localStorage (make_key l.artist l.album) }
      ⟨l.album, l.artist, true, false⟩
    exact ⟨by rw [h1]; simp, h3⟩
  | true =>
    simp only [Bool.not_true, Bool.false_eq_true, if_false, if_true]
    exact ⟨rfl, fun l' hl' => hl'⟩

theorem foldl_on_error_event (api_key : String) :
    ∀ (ls : List Listener) (page : Page),
      page.calls.length + (ls.filter (fun l => !l.is_retry)).length
        ≤ (ls.foldl (on_error_event api_key) page).calls.length ∧
      (∀ l' ∈ page.img.listeners, l' ∈ (ls.foldl (on_error_event api_key) page).img.listeners)
  | [], page => ⟨by simp, fun l' hl' => hl'⟩
  | l :: ls, page => by
    obtain ⟨h1, h2⟩ := on_error_event_frame api_key page l
    obtain ⟨ih1, ih2⟩ := foldl_on_error_event api_key ls (on_error_event api_key page l)
    refine ⟨?_, fun l' hl' => ih2 l' (h2 l' hl')⟩
    simp only [List.foldl_cons]
    cases hl : l.is_retry <;> simp [hl, List.filter] at h1 ⊢ <;> omega

theorem load_error_frame (api_key : String) (page : Page)
    (hfirst : ∃ l ∈ page.img.listeners, l.is_retry = false) :
    page.calls.length + 1 ≤ (load_error api_key page).calls.length ∧
    (∀ l' ∈ page.img.listeners, l' ∈ (load_error api_key page).img.listeners) := by
  obtain ⟨h1, h2⟩ := foldl_on_error_event api_key page.img.listeners page
  refine ⟨?_, h2⟩
  obtain ⟨l, hl, hr⟩ := hfirst
  have hpos : 0 < (page.img.listeners.filter (fun l => !l.is_retry)).length :=
    List.length_pos_of_mem (List.mem_filter.mpr ⟨hl, by simp [hr]⟩)
  unfold load_error
  omega

/-- Once a listener of a call that was not a retry is on the element, every
load failure makes at least one more call of `fetch_album_art`, whatever
replies arrive in between. -/
theorem every_load_failure_retries (api_key : String) :
    ∀ (events : List Event) (page : Page),
      (∃ l ∈ page.img.listeners, l.is_retry = false) →
      page.calls.length + (events.filter Event.is_load_failure).length
        ≤ (run_events api_key page events).calls.length
  | [], page, _ => by simp [run_events]
  | ev :: events, page, hfirst => by
    obtain ⟨l, hl, hr⟩ := hfirst
    cases ev with
    | load_failure =>
      obtain ⟨h1, h2⟩ := load_error_frame api_key page ⟨l, hl, hr⟩
      have ih := every_load_failure_retries api_key events (load_error api_key page)
        ⟨l, h2 l hl, hr⟩
      simp only [run_events, List.foldl_cons, step, List.filter, Event.is_load_failure,
        List.length_cons] at ih ⊢
      omega
    | reply i r =>
      obtain ⟨h1, h2⟩ := deliver_frame page i r
      have ih := every_load_failure_retries api_key events (deliver page i r) ⟨l, h2 l hl, hr⟩
      simp only [run_events, List.foldl_cons, step, List.filter, Event.is_load_failure] at ih ⊢
      rw [h1] at ih
      omega

theorem getProp_error (v : JVal) (name : String) (e : Thrown) (h : getProp v name = .error e) :
    ∃ m, e = .error m := by
  cases v <;> simp [getProp, readOfNullish] at h <;> exact ⟨_, h.symm⟩

mutual
theorem toStr_error : ∀ (v : JVal) (e : Thrown), toStr v = .error e → ∃ m, e = .error m
  | .undefined, e, h => by simp [toStr] at h
  | .null, e, h => by simp [toStr] at h
  | .bool _, e, h => by simp [toStr] at h
  | .num _, e, h => by simp [toStr] at h
  | .negZero, e, h => by simp [toStr] at h
  | .inf _, e, h => by simp [toStr] at h
  | .str _, e, h => by simp [toStr] at h
  | .arr items, e, h => by
    simp only [toStr] at h
    exact joinItems_error items e h
  | .obj fields, e, h => by
    simp only [toStr] at h
    split at h
    · exact ⟨_, (Except.error.inj h).symm⟩
    · simp at h
theorem joinItems_error : ∀ (items : List JVal) (e : Thrown),
    joinItems items = .error e → ∃ m, e = .error m
  | [], e, h => by simp [joinItems] at h
  | [x], e, h => by
    simp only [joinItems] at h
    split at h
    · simp at h
    · exact toStr_error x e h
  | x :: y :: rest, e, h => by
    simp only [joinItems] at h
    cases hn : nullish x with
    | true =>
      simp only [hn, if_true] at h
      cases hj : joinItems (y :: rest) with
      | error e1 =>
        simp only [hj] at h
        exact (Except.error.inj h) ▸ joinItems_error (y :: rest) e1 hj
      | ok t => simp [hj] at h
    | false =>
      simp only [hn, Bool.false_eq_true, if_false] at h
      cases hx : toStr x with
      | error e1 =>
        simp only [hx] at h
        exact (Except.error.inj h) ▸ toStr_error x e1 hx
      | ok s =>
        simp only [hx] at h
        cases hj : joinItems (y :: rest) with
        | error e1 =>
          simp only [hj] at h
          exact (Except.error.inj h) ▸ joinItems_error (y :: rest) e1 hj
        | ok t => simp [hj] at h
end

theorem strictEqStr_eq (v : JVal) (s : String) (h : strictEqStr v s = true) : v = .str s := by
  cases v <;> simp [strictEqStr] at h
  rw [h]

/-- Whatever the `catch` block throws has a string for its `message`. -/
theorem on_catch_message (e : Thrown) : ∃ m, message_of (on_catch e) = .ok (.str m) := by
  unfold on_catch
  cases hm : message_of e with
  | error e1 =>
    cases e with
    | error m0 => simp [message_of] at hm
    | value v =>
      obtain ⟨m, rfl⟩ := getProp_error v "message" e1 hm
      exact ⟨m, rfl⟩
  | ok message =>
    dsimp only
    cases hs : strictEqStr message "Image unavailable" with
    | true =>
      simp only [if_true]
      exact ⟨"Image unavailable", by rw [hm, strictEqStr_eq message _ hs]⟩
    | false =>
      simp only [Bool.false_eq_true, if_false]
      cases ht : toStr message with
      | error e1 =>
        obtain ⟨m, rfl⟩ := toStr_error message e1 ht
        exact ⟨m, rfl⟩
      | ok text => exact ⟨_, rfl⟩

theorem after_await_error (img : Img) (artist album : String) (is_retry : Bool)
    (settled : Except Thrown JVal) (e : Thrown)
    (h : (after_await img artist album is_retry settled).1 = .error e) :
    ∃ e0, e = on_catch e0 := by
  unfold after_await at h
  cases settled with
  | error e0 => exact ⟨e0, (Except.error.inj h).symm⟩
  | ok entry =>
    dsimp only at h
    rcases hb : bind_art img artist album is_retry entry with ⟨r, img1⟩
    rw [hb] at h
    cases r with
    | error e0 => exact ⟨e0, (Except.error.inj h).symm⟩
    | ok u => simp at h

/-- A call that has the `.catch` of the page loop leaves no unhandled rejection:
when it fails, the message of the failure becomes the `error` of the element. -/
theorem caught_failure_is_shown (page : Page) (call : Call) (settled : Except Thrown JVal)
    (hc : call.caught = true) :
    (finish page call settled).unhandled = page.unhandled ∧
    (∀ e, (after_await page.img call.artist call.album call.is_retry settled).1 = .error e →
      ∃ m, message_of e = .ok (.str m) ∧ (finish page call settled).img.error = some m) := by
  rw [finish_eq]
  cases hr : (after_await page.img call.artist call.album call.is_retry settled).1 with
  | ok u => exact ⟨rfl, fun e he => by simp at he⟩
  | error e =>
    dsimp only
    rw [if_pos hc]
    obtain ⟨e0, rfl⟩ := after_await_error _ _ _ _ _ _ hr
    obtain ⟨m, hm⟩ := on_catch_message e0
    have hp : ∀ p : Page, page_catch p (on_catch e0) = { p with img := { p.img with error := some m } } := by
      intro p
      simp only [page_catch, hm, toStr]
    rw [hp]
    exact ⟨rfl, fun e he => by cases he; exact ⟨m, hm, rfl⟩⟩

/-- A call without the `.catch`, as the `error` listener makes it, leaves its
failure unhandled and the `error` of the element as it was. -/
theorem uncaught_failure_is_unhandled (page : Page) (call : Call) (settled : Except Thrown JVal)
    (e : Thrown) (hc : call.caught = false)
    (h : (after_await page.img call.artist call.album call.is_retry settled).1 = .error e) :
    (finish page call settled).unhandled = page.unhandled ++ [e] ∧
    (finish page call settled).img.error = page.img.error := by
  rw [finish_eq, h]
  dsimp only
  rw [if_neg (by simp [hc])]
  exact ⟨rfl, (after_await_frame page.img call.artist call.album call.is_retry settled).1⟩

/-- The `catch` block keeps any caught value whose `message` is the sentinel
text, wherever it was thrown. -/
theorem on_catch_keeps_sentinel_message (v : JVal)
    (h : getProp v "message" = .ok (.str "Image unavailable")) :
    on_catch (.value v) = .value v := by
  simp [on_catch, message_of, h, strictEqStr]

/-- A falsy URL on the selected image makes `bind_art` throw the sentinel and
leave the element as it was. -/
theorem bind_art_unavailable (img : Img) (artist album : String) (is_retry : Bool)
    (entry image art url : JVal) (himage : getProp entry "image" = .ok image)
    (hart : selectArt image (target_size (max img.width img.height)) = .ok art)
    (hurl : getProp art "#text" = .ok url) (hfalsy : truthy url = false) :
    bind_art img artist album is_retry entry = (.error (.error "Image unavailable"), img) := by
  simp [bind_art, himage, hart, hurl, hfalsy]

/-- C5: on the bound element, the first `error` event removes the item under
`make_key "Radiohead" "Kid A"` and calls `fetch_album_art` again with the retry
flag set, but with `"Kid A"` as the artist and `"Radiohead"` as the album. -/
theorem retry_swaps_artist_and_album :
    bound_page.calls = [⟨"Radiohead", "Kid A", false, true⟩] ∧
    bound_page.img.listeners = [⟨"Radiohead", "Kid A", false⟩] ∧
    (getItem bound_page.localStorage (make_key "Radiohead" "Kid A")).isSome = true ∧
    (getItem (load_error "k" bound_page).localStorage
      (make_key "Radiohead" "Kid A")).isSome = false ∧
    (load_error "k" bound_page).calls =
      [⟨"Radiohead", "Kid A", false, true⟩, ⟨"Kid A", "Radiohead", true, false⟩] ∧
    (load_error "k" bound_page).requests =
      [lastfm_request "k" "Radiohead" "Kid A", lastfm_request "k" "Kid A" "Radiohead"] := by
  refine ⟨?_, ?_, ?_, ?_, ?_, ?_⟩ <;> rfl

/-- C6: two `error` events on the bound element make two further calls of
`fetch_album_art`, whether the first of them bound an image again or failed;
and when it failed, the second event sets no error on the element. -/
theorem retry_is_not_bounded :
    ((load_error "k" retried_page).calls.filter (fun c => c.is_retry)).length = 2 ∧
    (load_error "k" retried_page).img.error = some "Failed to load image source after retry" ∧
    ((load_error "k" failed_retry_page).calls.filter (fun c => c.is_retry)).length = 2 ∧
    (load_error "k" failed_retry_page).img.error = none := by
  refine ⟨?_, ?_, ?_, ?_⟩ <;> rfl

/-- C7: when last.fm answers with an error indicator whose `message` is
`Image unavailable`, no variant is ever selected, and `fetch_album_art` fails
with exactly that message, unprefixed, which the page loop puts on the element. -/
theorem sentinel_is_not_distinguishable :
    (get_lastfm_entry "k" (fun _ => .ok reply_sentinel_error) [] "Radiohead" "Kid A").result =
      .error (.value (.obj [("message", .str "Image unavailable")])) ∧
    (answered_run reply_sentinel_error).result =
      .error (.value (.obj [("message", .str "Image unavailable")])) ∧
    message_of (.value (.obj [("message", .str "Image unavailable")])) =
      .ok (.str "Image unavailable") ∧
    (answered_page reply_sentinel_error).img.error = some "Image unavailable" := by
  refine ⟨?_, ?_, ?_, ?_⟩ <;> rfl

/-- C9: a failure of the first call is put on the element by the page loop, but
the failure of the call made by the `error` listener is not: the element gets
no error, and the rejection is left unhandled. -/
theorem retry_failure_is_unhandled :
    (answered_page reply_not_found).img.error = some "Image fetch failed: undefined" ∧
    (answered_page reply_not_found).unhandled = [] ∧
    failed_retry_page.calls =
      [⟨"Radiohead", "Kid A", false, true⟩, ⟨"Kid A", "Radiohead", true, false⟩] ∧
    failed_retry_page.pending = [] ∧
    failed_retry_page.img.error = none ∧
    failed_retry_page.unhandled = [.error "Image fetch failed: undefined"] := by
  refine ⟨?_, ?_, ?_, ?_, ?_, ?_⟩ <;> rfl

end AlbumArt
